import Mathlib

/-!
Verification of the vinyasa memoization cache and pipeline executor
(shallow embedding of src/vinyasa.py).

The embedding models:
  * Python value representations (repr of ints, strings, booleans, None,
    tuples, dicts and bytes objects), as used by the f-string
    key_data = f"{func.__name__}{args}{kwargs}{bytecode}" at line 90;
  * SHA-256 (hashlib.sha256(...).hexdigest(), line 91), implemented
    concretely so CacheKeys of concrete calls can be computed and compared;
  * a small CPython-style bytecode machine: a code object carries co_code
    (a byte string), co_consts, co_names and co_varnames, and evaluation
    reads constants out of co_consts while the cache key reads only the
    co_code bytes, exactly as the decorator does (line 89);
  * the wrapper control flow of the cache decorator (lines 88-102);
  * the pipeline executor: resolve_script_path, run_script, the run
    command loop and the clear command (lines 107-123, 132-154, 207-212),
    with the module-global GLOBAL_CONTEXT dict (line 14);
  * the exact text transformation applied to a script before compiling:
    script_str = "\n".join(f.readlines()) at line 121.
-/

set_option autoImplicit false
set_option maxRecDepth 100000

namespace Vinyasa

/-! ## Character and string utilities -/

/-- Newline character, written via its code point. -/
def nlChar : Char := Char.ofNat 10

/-- Tab character. -/
def tabChar : Char := Char.ofNat 9

/-- Carriage-return character. -/
def crChar : Char := Char.ofNat 13

/-- Backslash character. -/
def bsChar : Char := Char.ofNat 92

/-- Single-quote character. -/
def sqChar : Char := Char.ofNat 39

/-- Double-quote character. -/
def dqChar : Char := Char.ofNat 34

/-- Lower-case hexadecimal digit for a value below 16. -/
def hexDigitChar (n : Nat) : Char :=
  if n < 10 then Char.ofNat (48 + n) else Char.ofNat (87 + n)

/-- Two lower-case hexadecimal digits of a byte. -/
def hex2 (b : Nat) : String :=
  String.mk [hexDigitChar (b / 16), hexDigitChar (b % 16)]

/-- Decimal digits of a natural number, with fuel for structural recursion. -/
def natStrAux : Nat → Nat → List Char
  | 0, _ => []
  | fuel + 1, n =>
    if n < 10 then [Char.ofNat (48 + n)]
    else natStrAux fuel (n / 10) ++ [Char.ofNat (48 + n % 10)]

/-- Decimal representation of a natural number. -/
def natStr (n : Nat) : String := String.mk (natStrAux (n + 1) n)

/-- Python repr of an integer (decimal digits, minus sign when negative). -/
def intRepr : Int → String
  | Int.ofNat n => natStr n
  | Int.negSucc n => "-" ++ natStr (n + 1)

/-- Concatenation of a list of strings. -/
def concatStrs (l : List String) : String := l.foldr (fun a b => a ++ b) ""

/-- Join a list of strings with a comma-space separator, as str.join does. -/
def joinComma : List String → String
  | [] => ""
  | [x] => x
  | x :: rest => x ++ ", " ++ joinComma rest

/-! ## Python values and their repr -/

/-- Python values that can appear as arguments and results in the model. -/
inductive PyVal where
  | int (i : Int)
  | str (s : String)
  | bool (b : Bool)
  | noneV
  deriving DecidableEq, Repr

/-- Escape of one character inside a Python string repr with a given quote. -/
def strEscChar (q : Char) (c : Char) : String :=
  if c = bsChar ∨ c = q then String.mk [bsChar, c]
  else if c = tabChar then String.mk [bsChar, Char.ofNat 116]
  else if c = nlChar then String.mk [bsChar, Char.ofNat 110]
  else if c = crChar then String.mk [bsChar, Char.ofNat 114]
  else if c.toNat < 32 ∨ c.toNat = 127 then String.mk [bsChar, Char.ofNat 120] ++ hex2 c.toNat
  else String.mk [c]

/-- Python repr of a string: single quotes, switching to double quotes when
the text holds a single quote and no double quote, with escapes as CPython
produces them for ASCII text. -/
def strRepr (s : String) : String :=
  let q := if s.data.contains sqChar && !(s.data.contains dqChar) then dqChar else sqChar
  String.mk [q] ++ concatStrs (s.data.map (strEscChar q)) ++ String.mk [q]

/-- Python repr of one of the modelled values. -/
def pyRepr : PyVal → String
  | .int i => intRepr i
  | .str s => strRepr s
  | .bool b => if b then "True" else "False"
  | .noneV => "None"

/-- Python str of a tuple given the reprs of its elements: parentheses,
comma-space separators, and a trailing comma for a one-element tuple. -/
def tupleReprOfStrs : List String → String
  | [] => "()"
  | [x] => "(" ++ x ++ ",)"
  | xs => "(" ++ joinComma xs ++ ")"

/-- Python str of the positional-argument tuple, as f-string formatting of
args produces at line 90. -/
def pyTupleRepr (vs : List PyVal) : String := tupleReprOfStrs (vs.map pyRepr)

/-- One key-value item of a dict repr. -/
def kwItemStr (p : String × PyVal) : String := strRepr p.fst ++ ": " ++ pyRepr p.snd

/-- Python str of the keyword-argument dict, as f-string formatting of
kwargs produces at line 90.  CPython dicts preserve insertion order, so the
text lists the keyword arguments in the order they were supplied. -/
def pyDictRepr (kvs : List (String × PyVal)) : String :=
  "\x7b" ++ joinComma (kvs.map kwItemStr) ++ "\x7d"

/-- Escape of one byte inside a Python bytes repr with a given quote. -/
def byteEsc (q : Char) (b : Nat) : String :=
  if b = q.toNat ∨ b = 92 then String.mk [bsChar, Char.ofNat b]
  else if b = 9 then String.mk [bsChar, Char.ofNat 116]
  else if b = 10 then String.mk [bsChar, Char.ofNat 110]
  else if b = 13 then String.mk [bsChar, Char.ofNat 114]
  else if b < 32 ∨ 127 ≤ b then String.mk [bsChar, Char.ofNat 120] ++ hex2 b
  else String.mk [Char.ofNat b]

/-- Python repr of a bytes object, as f-string formatting of
func.__code__.co_code produces at line 90. -/
def bytesRepr (bs : List Nat) : String :=
  let q := if bs.contains 39 && !(bs.contains 34) then dqChar else sqChar
  "b" ++ String.mk [q] ++ concatStrs (bs.map (byteEsc q)) ++ String.mk [q]

/-! ## UTF-8 encoding of a string (str.encode at line 91) -/

/-- UTF-8 bytes of one code point. -/
def utf8Char (n : Nat) : List Nat :=
  if n < 128 then [n]
  else if n < 2048 then [192 + n / 64, 128 + n % 64]
  else if n < 65536 then [224 + n / 4096, 128 + (n / 64) % 64, 128 + n % 64]
  else [240 + n / 262144, 128 + (n / 4096) % 64, 128 + (n / 64) % 64, 128 + n % 64]

/-- UTF-8 encoding of a string. -/
def utf8Encode (s : String) : List Nat :=
  s.data.foldr (fun c acc => utf8Char c.toNat ++ acc) []

/-! ## SHA-256 (hashlib.sha256, line 91) -/

/-- Modulus of 32-bit arithmetic. -/
def MOD32 : Nat := 4294967296

/-- Right rotation of a 32-bit word. -/
def rotr32 (n x : Nat) : Nat := ((x >>> n) ||| (x <<< (32 - n))) % MOD32

/-- SHA-256 choice function. -/
def shaCh (x y z : Nat) : Nat := (x &&& y) ^^^ ((x ^^^ 4294967295) &&& z)

/-- SHA-256 majority function. -/
def shaMaj (x y z : Nat) : Nat := (x &&& y) ^^^ (x &&& z) ^^^ (y &&& z)

/-- SHA-256 large sigma 0. -/
def bigS0 (x : Nat) : Nat := rotr32 2 x ^^^ rotr32 13 x ^^^ rotr32 22 x

/-- SHA-256 large sigma 1. -/
def bigS1 (x : Nat) : Nat := rotr32 6 x ^^^ rotr32 11 x ^^^ rotr32 25 x

/-- SHA-256 small sigma 0. -/
def smallS0 (x : Nat) : Nat := rotr32 7 x ^^^ rotr32 18 x ^^^ (x >>> 3)

/-- SHA-256 small sigma 1. -/
def smallS1 (x : Nat) : Nat := rotr32 17 x ^^^ rotr32 19 x ^^^ (x >>> 10)

/-- SHA-256 round constants, written in decimal. -/
def K64 : List Nat :=
  [1116352408, 1899447441, 3049323471, 3921009573, 961987163, 1508970993,
   2453635748, 2870763221, 3624381080, 310598401, 607225278, 1426881987,
   1925078388, 2162078206, 2614888103, 3248222580, 3835390401, 4022224774,
   264347078, 604807628, 770255983, 1249150122, 1555081692, 1996064986,
   2554220882, 2821834349, 2952996808, 3210313671, 3336571891, 3584528711,
   113926993, 338241895, 666307205, 773529912, 1294757372, 1396182291,
   1695183700, 1986661051, 2177026350, 2456956037, 2730485921, 2820302411,
   3259730800, 3345764771, 3516065817, 3600352804, 4094571909, 275423344,
   430227734, 506948616, 659060556, 883997877, 958139571, 1322822218,
   1537002063, 1747873779, 1955562222, 2024104815, 2227730452, 2361852424,
   2428436474, 2756734187, 3204031479, 3329325298]

/-- State of the SHA-256 compression function: eight 32-bit words. -/
structure H8 where
  a : Nat
  b : Nat
  c : Nat
  d : Nat
  e : Nat
  f : Nat
  g : Nat
  h : Nat

/-- Initial SHA-256 state, written in decimal. -/
def initH : H8 :=
  ⟨1779033703, 3144134277, 1013904242, 2773480762,
   1359893119, 2600822924, 528734635, 1541459225⟩

/-- Big-endian eight-byte encoding of a length in bits. -/
def be64 (n : Nat) : List Nat :=
  [56, 48, 40, 32, 24, 16, 8, 0].map (fun k => (n >>> k) % 256)

/-- SHA-256 message padding. -/
def padMessage (msg : List Nat) : List Nat :=
  msg ++ 128 :: List.replicate ((119 - msg.length % 64) % 64) 0 ++ be64 (8 * msg.length)

/-- The sixteen big-endian 32-bit words of one 64-byte block. -/
def wordsOfBlock (blk : List Nat) : Array Nat :=
  ((List.range 16).map (fun j =>
    blk.getD (4 * j) 0 * 16777216 + blk.getD (4 * j + 1) 0 * 65536 +
    blk.getD (4 * j + 2) 0 * 256 + blk.getD (4 * j + 3) 0)).toArray

/-- Extension of the sixteen block words to the 64-entry message schedule. -/
def schedule (w : Array Nat) : Array Nat :=
  (List.range 48).foldl (fun arr i =>
    let t := i + 16
    arr.push ((smallS1 (arr.getD (t - 2) 0) + arr.getD (t - 7) 0 +
      smallS0 (arr.getD (t - 15) 0) + arr.getD (t - 16) 0) % MOD32)) w

/-- SHA-256 compression of one block into the running state. -/
def compressBlock (st : H8) (w : Array Nat) : H8 :=
  let fin := (List.range 64).foldl (fun s t =>
    let T1 := (s.h + bigS1 s.e + shaCh s.e s.f s.g + K64.getD t 0 + w.getD t 0) % MOD32
    let T2 := (bigS0 s.a + shaMaj s.a s.b s.c) % MOD32
    ⟨(T1 + T2) % MOD32, s.a, s.b, s.c, (s.d + T1) % MOD32, s.e, s.f, s.g⟩) st
  ⟨(st.a + fin.a) % MOD32, (st.b + fin.b) % MOD32, (st.c + fin.c) % MOD32,
   (st.d + fin.d) % MOD32, (st.e + fin.e) % MOD32, (st.f + fin.f) % MOD32,
   (st.g + fin.g) % MOD32, (st.h + fin.h) % MOD32⟩

/-- Eight lower-case hexadecimal digits of a 32-bit word. -/
def hex8 (w : Nat) : String :=
  String.mk ((List.range 8).map (fun i => hexDigitChar ((w >>> (28 - 4 * i)) % 16)))

/-- SHA-256 hex digest of a byte sequence. -/
def sha256Hex (msg : List Nat) : String :=
  let padded := padMessage msg
  let fin := (List.range (padded.length / 64)).foldl
    (fun st i => compressBlock st (schedule (wordsOfBlock ((padded.drop (64 * i)).take 64)))) initH
  hex8 fin.a ++ hex8 fin.b ++ hex8 fin.c ++ hex8 fin.d ++
  hex8 fin.e ++ hex8 fin.f ++ hex8 fin.g ++ hex8 fin.h

/-! ## A small CPython-style bytecode machine

A code object carries the byte string co_code together with the tables
co_consts, co_names and co_varnames that its instructions index into.
Evaluation depends on the tables; the cache key of the decorator reads only
the co_code bytes (func.__code__.co_code, line 89 of the source). -/

/-- A compiled Python code object. -/
structure CodeObj where
  co_code : List Nat
  co_consts : List PyVal
  co_names : List String
  co_varnames : List String
  deriving DecidableEq, Repr

/-- A namespace: an insertion-ordered mapping from names to values, as a
CPython dict stores it. -/
abbrev Ctx := List (String × PyVal)

/-- Lookup of a name in a namespace. -/
def ctxGet : Ctx → String → Option PyVal
  | [], _ => Option.none
  | (k, v) :: rest, n => if k = n then some v else ctxGet rest n

/-- Assignment of a name in a namespace: an existing key keeps its position,
a new key is appended at the end, as CPython dict assignment does. -/
def ctxSet : Ctx → String → PyVal → Ctx
  | [], n, v => [(n, v)]
  | (k, w) :: rest, n, v => if k = n then (n, v) :: rest else (k, w) :: ctxSet rest n v

/-- Errors the machine can raise. -/
inductive PyErr where
  | nameError (n : String)
  | typeError
  | vmError
  | raised (v : PyVal)
  deriving DecidableEq, Repr

/-- Decoding of the co_code byte string into (opcode, argument) pairs: each
instruction occupies two bytes. -/
def decodeOps : List Nat → List (Nat × Nat)
  | op :: arg :: rest => (op, arg) :: decodeOps rest
  | _ => []

/-- Straight-line execution of decoded instructions against an operand
stack, local values, the tables of the code object and a global namespace.
Opcode numbers follow CPython: 100 LOAD_CONST, 124 LOAD_FAST, 90 STORE_NAME,
101 LOAD_NAME, 23 BINARY_ADD, 83 RETURN_VALUE, 130 RAISE_VARARGS.  The
namespace reached so far is returned even when an error is raised, since
exec mutates the caller-supplied dict in place. -/
def runOps : List (Nat × Nat) → List PyVal → CodeObj → List PyVal → Ctx →
    (Except PyErr PyVal) × Ctx
  | [], _, _, _, ctx => (Except.ok PyVal.noneV, ctx)
  | (op, arg) :: rest, stack, c, loc, ctx =>
    if op = 100 then
      match c.co_consts.get? arg with
      | some v => runOps rest (v :: stack) c loc ctx
      | Option.none => (Except.error PyErr.vmError, ctx)
    else if op = 124 then
      match loc.get? arg with
      | some v => runOps rest (v :: stack) c loc ctx
      | Option.none => (Except.error PyErr.vmError, ctx)
    else if op = 90 then
      match c.co_names.get? arg, stack with
      | some nm, v :: st => runOps rest st c loc (ctxSet ctx nm v)
      | _, _ => (Except.error PyErr.vmError, ctx)
    else if op = 101 then
      match c.co_names.get? arg with
      | some nm =>
        match ctxGet ctx nm with
        | some v => runOps rest (v :: stack) c loc ctx
        | Option.none => (Except.error (PyErr.nameError nm), ctx)
      | Option.none => (Except.error PyErr.vmError, ctx)
    else if op = 23 then
      match stack with
      | PyVal.int y :: PyVal.int x :: st => runOps rest (PyVal.int (x + y) :: st) c loc ctx
      | _ => (Except.error PyErr.typeError, ctx)
    else if op = 83 then
      match stack with
      | v :: _ => (Except.ok v, ctx)
      | [] => (Except.error PyErr.vmError, ctx)
    else if op = 130 then
      match stack with
      | v :: _ => (Except.error (PyErr.raised v), ctx)
      | [] => (Except.error PyErr.vmError, ctx)
    else (Except.error PyErr.vmError, ctx)

/-- A Python function: its __name__ and its __code__. -/
structure PyFunc where
  name : String
  code : CodeObj
  deriving DecidableEq, Repr

/-- Binding of positional and keyword arguments to the parameter list
co_varnames, positional first, the rest looked up by keyword name. -/
def bindArgs : List String → List PyVal → List (String × PyVal) → Option (List PyVal)
  | [], _, _ => some []
  | n :: rest, args, kwargs =>
    match args with
    | a :: moreArgs => (bindArgs rest moreArgs kwargs).map (fun l => a :: l)
    | [] =>
      match ctxGet kwargs n with
      | some v => (bindArgs rest [] kwargs).map (fun l => v :: l)
      | Option.none => Option.none

/-- A call of the wrapped function: bind arguments, then run its body. -/
def runFunc (f : PyFunc) (args : List PyVal) (kwargs : List (String × PyVal)) (ctx : Ctx) :
    (Except PyErr PyVal) × Ctx :=
  match bindArgs f.code.co_varnames args kwargs with
  | some loc => runOps (decodeOps f.code.co_code) [] f.code loc ctx
  | Option.none => (Except.error PyErr.typeError, ctx)

/-! ## The cache decorator (lines 70-104 of the source) -/

/-- The key_data string of line 90:
f-string of the function name, the args tuple, the kwargs dict and the
co_code bytes. -/
def keyData (f : PyFunc) (args : List PyVal) (kwargs : List (String × PyVal)) : String :=
  f.name ++ pyTupleRepr args ++ pyDictRepr kwargs ++ bytesRepr f.code.co_code

/-- The CacheKey of line 91: SHA-256 hex digest of the encoded key_data. -/
def cacheKey (f : PyFunc) (args : List PyVal) (kwargs : List (String × PyVal)) : String :=
  sha256Hex (utf8Encode (keyData f args kwargs))

/-- The cache directory contents: file name to pickled blob.  Pickling is
modelled as the identity on values, per the round-trip fidelity contract. -/
abbrev Store := List (String × PyVal)

/-- File-existence check and read of a cache file. -/
def storeGet : Store → String → Option PyVal := ctxGet

/-- Write of a cache file. -/
def storePut (st : Store) (name : String) (v : PyVal) : Store := ctxSet st name v

/-- Equality of call results is decidable. -/
instance : DecidableEq (Except PyErr PyVal) := fun a b =>
  match a, b with
  | Except.ok v, Except.ok w =>
    if h : v = w then isTrue (by rw [h]) else isFalse (by simp [h])
  | Except.error e, Except.error e2 =>
    if h : e = e2 then isTrue (by rw [h]) else isFalse (by simp [h])
  | Except.ok _, Except.error _ => isFalse (by simp)
  | Except.error _, Except.ok _ => isFalse (by simp)

/-- Outcome of one call of the wrapped function. -/
structure WrapOutcome where
  result : Except PyErr PyVal
  store : Store
  ctx : Ctx
  hit : Bool
  deriving DecidableEq

/-- The wrapper of lines 88-102: compute the key, return the pickled value
when the cache file exists (without calling the function), otherwise call
the function, store the result and return it.  When the call raises, the
exception propagates before pickle.dump runs, so nothing is stored. -/
def wrapper (f : PyFunc) (args : List PyVal) (kwargs : List (String × PyVal))
    (st : Store) (ctx : Ctx) : WrapOutcome :=
  let key := cacheKey f args kwargs
  let file := key ++ ".pkl"
  match storeGet st file with
  | some blob => ⟨Except.ok blob, st, ctx, true⟩
  | Option.none =>
    match runFunc f args kwargs ctx with
    | (Except.ok v, ctx2) => ⟨Except.ok v, storePut st file v, ctx2, false⟩
    | (Except.error e, ctx2) => ⟨Except.error e, st, ctx2, false⟩

/-! ## The clear command (lines 207-212) -/

/-- Whether a file name matches the glob pattern star-dot-pkl, written as a
suffix check on the reversed character list. -/
def listPrefixB : List Char → List Char → Bool
  | [], _ => true
  | _ :: _, [] => false
  | a :: l1, b :: l2 => a = b && listPrefixB l1 l2

/-- Glob match of the pattern used by clear. -/
def globPkl (name : String) : Bool :=
  listPrefixB [Char.ofNat 108, Char.ofNat 107, Char.ofNat 112, Char.ofNat 46] name.data.reverse

/-- clear unlinks every file of the cache directory matching the glob. -/
def clearStore (st : Store) : Store := st.filter (fun e => !(globPkl e.fst))

/-! ## The pipeline executor (lines 107-154) -/

/-- resolve_script_path of lines 107-111: an absolute path stands, a
relative one resolves against the current working directory.  A POSIX path
is absolute exactly when it starts with the slash character. -/
def isAbsolutePath (p : String) : Bool :=
  match p.data with
  | [] => false
  | c :: _ => c = Char.ofNat 47

/-- Resolution of a script argument to a path. -/
def resolve_script_path (cwd script : String) : String :=
  if isAbsolutePath script then script else cwd ++ "/" ++ script

/-- A script file on disk: its text and its compiled unit.  Compilation of
Python text is abstracted: the file carries the code object that
compile(script_str, name, "exec") yields for it. -/
structure ScriptFile where
  text : String
  compiled : CodeObj
  deriving DecidableEq

/-- The filesystem visible to the executor. -/
abbrev FileSys := String → Option ScriptFile

/-- Observable outcome of one stage: either the script-not-found notice of
line 117, or the execution of the compiled unit. -/
inductive StageEvent where
  | notFound (script : String)
  | executed (script : String)
  deriving DecidableEq, Repr

/-- run_script of lines 114-123: resolve the path; when the file is absent,
print the notice and return (non-fatal); otherwise execute the compiled
unit against the global namespace.  An uncaught error is returned together
with the namespace as mutated so far. -/
def run_script (fs : FileSys) (cwd script : String) (ctx : Ctx) :
    Ctx × Option PyErr × StageEvent :=
  match fs (resolve_script_path cwd script) with
  | Option.none => (ctx, Option.none, StageEvent.notFound script)
  | some file =>
    match runOps (decodeOps file.compiled.co_code) [] file.compiled [] ctx with
    | (Except.ok _, ctx2) => (ctx2, Option.none, StageEvent.executed script)
    | (Except.error e, ctx2) => (ctx2, some e, StageEvent.executed script)

/-- The stage loop of lines 147-148: stages run in order; the first
uncaught error stops the loop at once (there is no handler around
run_script), so later stages are neither resolved nor executed and no retry
happens. -/
def runStages (fs : FileSys) (cwd : String) : List String → Ctx →
    Ctx × Option PyErr × List StageEvent
  | [], ctx => (ctx, Option.none, [])
  | s :: rest, ctx =>
    match run_script fs cwd s ctx with
    | (ctx2, Option.none, ev) =>
      let (ctx3, err, evs) := runStages fs cwd rest ctx2
      (ctx3, err, ev :: evs)
    | (ctx2, some e, ev) => (ctx2, some e, [ev])

/-- The module-global execution namespace of line 14, created empty once
at process start (module import) and never reset by run. -/
def GLOBAL_CONTEXT : Ctx := []

/-- Process-wide state the commands act on: the cache directory, the
history log and the global namespace. -/
structure World where
  store : Store
  history : List (List String)
  ctx : Ctx

/-- State of a freshly started process. -/
def initWorld (st : Store) (hist : List (List String)) : World :=
  ⟨st, hist, GLOBAL_CONTEXT⟩

/-- The run command of lines 132-154: append the script list to the history
(save_history runs first), then execute the stages against the module
namespace.  Timing output and the optional full-script dump are out of
scope.  Nothing resets the namespace before or after the loop. -/
def run (fs : FileSys) (cwd : String) (scripts : List String) (w : World) :
    World × Option PyErr × List StageEvent :=
  let hist := w.history ++ [scripts]
  let (ctx2, err, evs) := runStages fs cwd scripts w.ctx
  (⟨w.store, hist, ctx2⟩, err, evs)

/-- The clear command of lines 207-212 applied to the process state: it
unlinks the cache files and touches nothing else. -/
def clear (w : World) : World := ⟨clearStore w.store, w.history, w.ctx⟩

/-! ## The script text transformation of line 121 -/

/-- Python readlines: split a character sequence into lines, each line
keeping its trailing newline; a final fragment without a newline is a line
of its own. -/
def readlines : List Char → List (List Char)
  | [] => []
  | c :: rest =>
    if c = nlChar then [nlChar] :: readlines rest
    else
      match readlines rest with
      | [] => [[c]]
      | l :: ls => (c :: l) :: ls

/-- Join of a list of lines with a newline separator, as the str.join call
of line 121 produces. -/
def joinNl : List (List Char) → List Char
  | [] => []
  | [l] => l
  | l :: ls => l ++ nlChar :: joinNl ls

/-- The script_str of line 121: the file text split by readlines and joined
with an extra newline. -/
def script_str (s : String) : String := String.mk (joinNl (readlines s.data))

/-- Independent description of the same transformation: every newline that
is followed by further text is doubled, so a blank line appears after each
newline-terminated line except a final one. -/
def dblNl : List Char → List Char
  | [] => []
  | c :: rest =>
    if c = nlChar then
      if rest = [] then [nlChar] else nlChar :: nlChar :: dblNl rest
    else c :: dblNl rest

/-! ## Concatenation of lines (used to specify the transformation) -/

/-- Concatenation of a list of lines. -/
def catLines : List (List Char) → List Char
  | [] => []
  | l :: ls => l ++ catLines ls

/-! ## Concrete functions, files and filesystems used by the witnesses -/

/-- A wrapped function whose body is LOAD_CONST 1; RETURN_VALUE and whose
constant table holds 4: the Python body is a bare return of the literal 4. -/
def exF1 : PyFunc := ⟨"load", ⟨[100, 1, 83, 0], [PyVal.noneV, PyVal.int 4], [], []⟩⟩

/-- The same function after editing only the literal: identical co_code
bytes, constant table now holding 5. -/
def exF2 : PyFunc := ⟨"load", ⟨[100, 1, 83, 0], [PyVal.noneV, PyVal.int 5], [], []⟩⟩

/-- An identity function of one parameter: LOAD_FAST 0; RETURN_VALUE. -/
def exIdent : PyFunc := ⟨"ident", ⟨[124, 0, 83, 0], [PyVal.noneV], [], ["x"]⟩⟩

/-- Keyword arguments supplied in the order a, b. -/
def exKw1 : List (String × PyVal) := [("a", PyVal.int 1), ("b", PyVal.int 2)]

/-- The same keyword-argument mapping supplied in the order b, a. -/
def exKw2 : List (String × PyVal) := [("b", PyVal.int 2), ("a", PyVal.int 1)]

/-- Compiled stage assigning x = 1 at top level. -/
def codeAssignX : CodeObj := ⟨[100, 0, 90, 0, 100, 1, 83, 0], [PyVal.int 1, PyVal.noneV], ["x"], []⟩

/-- Compiled stage assigning y = x at top level (reads the shared name x). -/
def codeReadX : CodeObj := ⟨[101, 0, 90, 1, 100, 0, 83, 0], [PyVal.noneV], ["x", "y"], []⟩

/-- Compiled stage assigning z = 2 at top level. -/
def codeAssignZ : CodeObj := ⟨[100, 0, 90, 0, 100, 1, 83, 0], [PyVal.int 2, PyVal.noneV], ["z"], []⟩

/-- Compiled stage raising an uncaught error. -/
def codeBoom : CodeObj := ⟨[100, 0, 130, 1], [PyVal.int 7], [], []⟩

/-- A concrete filesystem with four stages under /w; every other path is
absent. -/
def exFs : FileSys := fun p =>
  if p = "/w/a.py" then some ⟨"x = 1\n", codeAssignX⟩
  else if p = "/w/b.py" then some ⟨"y = x\n", codeReadX⟩
  else if p = "/w/boom.py" then some ⟨"raise 7\n", codeBoom⟩
  else if p = "/w/c.py" then some ⟨"z = 2\n", codeAssignZ⟩
  else Option.none

/-! ## Helper lemmas -/

/-- Appending a common suffix to two strings is cancellable. -/
theorem strAppendRightCancel {s1 s2 t : String} (h : s1 ++ t = s2 ++ t) : s1 = s2 := by
  have hd : s1.data ++ t.data = s2.data ++ t.data := by
    have h2 := congrArg String.data h
    simpa [String.data_append] using h2
  have hl : s1.data.length = s2.data.length := by
    have h3 := congrArg List.length hd
    simp only [List.length_append] at h3
    omega
  have h4 := (List.append_inj hd hl).1
  calc s1 = String.mk s1.data := rfl
    _ = String.mk s2.data := by rw [h4]
    _ = s2 := rfl

/-- Appending a common prefix to two strings is cancellable. -/
theorem strAppendLeftCancel {t s1 s2 : String} (h : t ++ s1 = t ++ s2) : s1 = s2 := by
  have hd : t.data ++ s1.data = t.data ++ s2.data := by
    have h2 := congrArg String.data h
    simpa [String.data_append] using h2
  have h4 := (List.append_inj hd rfl).2
  calc s1 = String.mk s1.data := rfl
    _ = String.mk s2.data := by rw [h4]
    _ = s2 := rfl

/-- Assignment followed by lookup of the same name yields the value. -/
theorem ctxGet_set_self (st : Ctx) (k : String) (v : PyVal) :
    ctxGet (ctxSet st k v) k = some v := by
  induction st with
  | nil => simp [ctxSet, ctxGet]
  | cons p rest ih =>
    obtain ⟨k2, w⟩ := p
    by_cases h : k2 = k
    · simp [ctxSet, h, ctxGet]
    · simp [ctxSet, h, ctxGet, ih]

/-- The key_data string depends only on the function name, the argument
reprs, the keyword names with their value reprs, and the co_code bytes. -/
theorem keyData_eq_of (f1 f2 : PyFunc) (a1 a2 : List PyVal)
    (k1 k2 : List (String × PyVal))
    (hn : f1.name = f2.name) (hc : f1.code.co_code = f2.code.co_code)
    (ha : a1.map pyRepr = a2.map pyRepr)
    (hk : k1.map (fun p => (p.fst, pyRepr p.snd)) = k2.map (fun p => (p.fst, pyRepr p.snd))) :
    keyData f1 a1 k1 = keyData f2 a2 k2 := by
  have hitems : k1.map kwItemStr = k2.map kwItemStr := by
    have hfact : ∀ (l : List (String × PyVal)),
        l.map kwItemStr =
          (l.map (fun p => (p.fst, pyRepr p.snd))).map (fun q => strRepr q.fst ++ ": " ++ q.snd) := by
      intro l
      rw [List.map_map]
      rfl
    rw [hfact k1, hfact k2, hk]
  unfold keyData pyTupleRepr pyDictRepr
  rw [hn, hc, ha, hitems]

/-- Cache keys agree whenever the key_data strings agree. -/
theorem cacheKey_eq_of (f1 f2 : PyFunc) (a1 a2 : List PyVal)
    (k1 k2 : List (String × PyVal)) (h : keyData f1 a1 k1 = keyData f2 a2 k2) :
    cacheKey f1 a1 k1 = cacheKey f2 a2 k2 :=
  congrArg (fun d => sha256Hex (utf8Encode d)) h

/-- After a call that returned a value, the store holds that value under
the key of the call: a miss stored it, a hit found it already there. -/
theorem store_after_ok (f : PyFunc) (a : List PyVal) (kw : List (String × PyVal))
    (st : Store) (ctx : Ctx) (v : PyVal)
    (h : (wrapper f a kw st ctx).result = Except.ok v) :
    storeGet (wrapper f a kw st ctx).store (cacheKey f a kw ++ ".pkl") = some v := by
  unfold wrapper at h ⊢
  cases hg : storeGet st (cacheKey f a kw ++ ".pkl") with
  | some blob =>
    simp only [hg] at h ⊢
    cases h
    rfl
  | none =>
    simp only [hg] at h ⊢
    cases hr : runFunc f a kw ctx with
    | mk r ctx2 =>
      cases r with
      | ok w =>
        simp only [hr] at h ⊢
        cases h
        exact ctxGet_set_self st (cacheKey f a kw ++ ".pkl") v
      | error e =>
        simp only [hr] at h
        exact absurd h (by simp)

/-! ## Claim theorems -/

/-- C1: Literal-value blindness.  For two wrapped callables with the same
name and the same instruction bytes (co_code) — in particular after editing
only a constant value in the constant table — the derived CacheKey is
identical, so once a call of the first has stored a value, the same call of
the edited callable is a cache hit that returns the stale stored value,
leaves the store and namespace untouched, and never executes the edited
body. -/
theorem literal_value_blindness (f1 f2 : PyFunc) (args : List PyVal)
    (kwargs : List (String × PyVal)) (st : Store) (ctx ctx2 : Ctx) (v : PyVal)
    (hn : f1.name = f2.name) (hc : f1.code.co_code = f2.code.co_code)
    (hres : (wrapper f1 args kwargs st ctx).result = Except.ok v) :
    cacheKey f2 args kwargs = cacheKey f1 args kwargs ∧
    wrapper f2 args kwargs (wrapper f1 args kwargs st ctx).store ctx2 =
      ⟨Except.ok v, (wrapper f1 args kwargs st ctx).store, ctx2, true⟩ := by
  have hkey : cacheKey f2 args kwargs = cacheKey f1 args kwargs :=
    cacheKey_eq_of f2 f1 args args kwargs kwargs
      (keyData_eq_of f2 f1 args args kwargs kwargs hn.symm hc.symm rfl rfl)
  refine ⟨hkey, ?_⟩
  have hst := store_after_ok f1 args kwargs st ctx v hres
  generalize hG : wrapper f1 args kwargs st ctx = o1 at hst ⊢
  simp only [wrapper]
  rw [hkey, hst]

/-- C1 witness: the body returning the literal 4 and the body returning the
literal 5 share co_code; after the first is called and cached, calling the
edited one hits and returns the stale 4, although its own execution yields
5. -/
theorem literal_value_blindness_witness :
    (wrapper exF1 [] [] [] []).result = Except.ok (PyVal.int 4) ∧
    (runFunc exF2 [] [] []).fst = Except.ok (PyVal.int 5) ∧
    wrapper exF2 [] [] (wrapper exF1 [] [] [] []).store [] =
      ⟨Except.ok (PyVal.int 4), (wrapper exF1 [] [] [] []).store, [], true⟩ :=
  ⟨by decide, by decide,
    (literal_value_blindness exF1 exF2 [] [] [] [] [] (PyVal.int 4) rfl rfl (by decide)).2⟩

/-- C2: CacheKey determinism.  Two calls with identical callable name,
identical positional-argument reprs, identical keyword-argument mapping
(same names and value reprs, as the call supplies them) and identical
co_code bytes derive the same CacheKey, whatever the runtime result; and
once the first call has returned a value, the second such call is a store
hit returning that value. -/
theorem cacheKey_determinism (f1 f2 : PyFunc) (a1 a2 : List PyVal)
    (k1 k2 : List (String × PyVal)) (st : Store) (ctx ctx2 : Ctx) (v : PyVal)
    (hn : f1.name = f2.name) (hc : f1.code.co_code = f2.code.co_code)
    (ha : a1.map pyRepr = a2.map pyRepr)
    (hk : k1.map (fun p => (p.fst, pyRepr p.snd)) = k2.map (fun p => (p.fst, pyRepr p.snd)))
    (hres : (wrapper f1 a1 k1 st ctx).result = Except.ok v) :
    cacheKey f1 a1 k1 = cacheKey f2 a2 k2 ∧
    (wrapper f2 a2 k2 (wrapper f1 a1 k1 st ctx).store ctx2).hit = true ∧
    (wrapper f2 a2 k2 (wrapper f1 a1 k1 st ctx).store ctx2).result = Except.ok v := by
  have hkey : cacheKey f1 a1 k1 = cacheKey f2 a2 k2 :=
    cacheKey_eq_of f1 f2 a1 a2 k1 k2 (keyData_eq_of f1 f2 a1 a2 k1 k2 hn hc ha hk)
  have hst := store_after_ok f1 a1 k1 st ctx v hres
  refine ⟨hkey, ?_, ?_⟩ <;>
  · generalize hG : wrapper f1 a1 k1 st ctx = o1 at hst ⊢
    simp only [wrapper]
    rw [← hkey, hst]

/-- C2 witness: calling the identity function twice with the same argument
produces a key equal to itself and a second-call hit returning the cached
7. -/
theorem cacheKey_determinism_witness :
    (wrapper exIdent [PyVal.int 7] [] [] []).result = Except.ok (PyVal.int 7) ∧
    (wrapper exIdent [PyVal.int 7] [] (wrapper exIdent [PyVal.int 7] [] [] []).store []).hit = true ∧
    (wrapper exIdent [PyVal.int 7] [] (wrapper exIdent [PyVal.int 7] [] [] []).store []).result =
      Except.ok (PyVal.int 7) :=
  ⟨by decide,
    (cacheKey_determinism exIdent exIdent [PyVal.int 7] [PyVal.int 7] [] [] [] [] []
      (PyVal.int 7) rfl rfl rfl rfl (by decide)).2.1,
    (cacheKey_determinism exIdent exIdent [PyVal.int 7] [PyVal.int 7] [] [] [] [] []
      (PyVal.int 7) rfl rfl rfl rfl (by decide)).2.2⟩

/-- C3 counterexample: the same keyword-argument mapping (pointwise equal
as a mapping from names to values) supplied in the orders a, b and b, a
yields two different CacheKeys for the same callable and positional
arguments, because the key embeds the insertion-ordered dict repr. -/
theorem kwargs_order_counterexample :
    (∀ s, ctxGet exKw1 s = ctxGet exKw2 s) ∧
    cacheKey exF1 [] exKw1 ≠ cacheKey exF1 [] exKw2 := by
  constructor
  · intro s
    by_cases h1 : "a" = s
    · by_cases h2 : "b" = s
      · exact absurd (h1.trans h2.symm) (by decide)
      · simp [exKw1, exKw2, ctxGet, h1, h2]
    · by_cases h2 : "b" = s
      · simp [exKw1, exKw2, ctxGet, h1, h2]
      · simp [exKw1, exKw2, ctxGet, h1, h2]
  · decide

/-- C3 amended: the CallIdentity embeds the kwargs dict in its textual,
insertion-ordered form, so two calls to the same callable with equal
positional arguments agree on the CacheKey when the keyword arguments are
supplied in the same order with the same names and value reprs; different
supply orders generally differ (see the counterexample). -/
theorem kwargs_same_order_same_key (f : PyFunc) (a : List PyVal)
    (k1 k2 : List (String × PyVal))
    (hk : k1.map (fun p => (p.fst, pyRepr p.snd)) = k2.map (fun p => (p.fst, pyRepr p.snd))) :
    cacheKey f a k1 = cacheKey f a k2 :=
  cacheKey_eq_of f f a a k1 k2 (keyData_eq_of f f a a k1 k2 rfl rfl rfl hk)

/-- C3 amended witness: with the keyword arguments supplied in the same
order the keys agree. -/
theorem kwargs_same_order_same_key_witness :
    ([("a", PyVal.int 1), ("b", PyVal.int 2)].map (fun p => (p.fst, pyRepr p.snd)) =
      exKw1.map (fun p => (p.fst, pyRepr p.snd))) ∧
    cacheKey exF1 [] [("a", PyVal.int 1), ("b", PyVal.int 2)] = cacheKey exF1 [] exKw1 :=
  ⟨by decide, kwargs_same_order_same_key exF1 [] [("a", PyVal.int 1), ("b", PyVal.int 2)] exKw1
    (by decide)⟩

/-- C4: Side-effect elision on hit.  When the store holds an entry under
the computed CacheKey, the call returns the deserialized blob as its
result, the store is unchanged, the hit flag is set, and the wrapped body
never runs: the shared namespace is returned exactly as it was, so no
statement of the body (and no namespace write) executes. -/
theorem hit_elides_side_effects (f : PyFunc) (a : List PyVal)
    (kw : List (String × PyVal)) (st : Store) (ctx : Ctx) (b : PyVal)
    (h : storeGet st (cacheKey f a kw ++ ".pkl") = some b) :
    wrapper f a kw st ctx = ⟨Except.ok b, st, ctx, true⟩ := by
  simp only [wrapper]
  rw [h]

/-- C4 witness: with a store holding 9 under the key of the call, the call
returns 9, keeps the namespace as it was, and reports a hit — although
executing the body would return 4. -/
theorem hit_elides_side_effects_witness :
    storeGet [(cacheKey exF1 [] [] ++ ".pkl", PyVal.int 9)] (cacheKey exF1 [] [] ++ ".pkl") =
      some (PyVal.int 9) ∧
    wrapper exF1 [] [] [(cacheKey exF1 [] [] ++ ".pkl", PyVal.int 9)] [("w", PyVal.int 0)] =
      ⟨Except.ok (PyVal.int 9), [(cacheKey exF1 [] [] ++ ".pkl", PyVal.int 9)],
        [("w", PyVal.int 0)], true⟩ :=
  ⟨by decide,
    hit_elides_side_effects exF1 [] [] [(cacheKey exF1 [] [] ++ ".pkl", PyVal.int 9)]
      [("w", PyVal.int 0)] (PyVal.int 9) (by decide)⟩

/-- C5: Fail-fast pipeline.  When stage A runs cleanly and stage B raises
an uncaught error, the stage loop stops with exactly the events of A and B
— every stage after B is neither resolved nor executed — the error
propagates out to the run command together with the namespace as mutated so
far, and nothing retries the failed stage. -/
theorem fail_fast (fs : FileSys) (cwd a b : String) (rest : List String)
    (st : Store) (hist : List (List String)) (ctx ctx1 ctx2 : Ctx)
    (e : PyErr) (ev1 ev2 : StageEvent)
    (h1 : run_script fs cwd a ctx = (ctx1, Option.none, ev1))
    (h2 : run_script fs cwd b ctx1 = (ctx2, some e, ev2)) :
    runStages fs cwd (a :: b :: rest) ctx = (ctx2, some e, [ev1, ev2]) ∧
    run fs cwd (a :: b :: rest) ⟨st, hist, ctx⟩ =
      (⟨st, hist ++ [a :: b :: rest], ctx2⟩, some e, [ev1, ev2]) := by
  have hs : runStages fs cwd (a :: b :: rest) ctx = (ctx2, some e, [ev1, ev2]) := by
    simp only [runStages, h1, h2]
  refine ⟨hs, ?_⟩
  simp only [run, hs]

/-- C5 witness: with stages a.py, boom.py, c.py where boom.py raises, the
loop reports only a.py and boom.py as executed, surfaces the raised error,
and never touches c.py. -/
theorem fail_fast_witness :
    run_script exFs "/w" "a.py" [] = ([("x", PyVal.int 1)], Option.none, StageEvent.executed "a.py") ∧
    run_script exFs "/w" "boom.py" [("x", PyVal.int 1)] =
      ([("x", PyVal.int 1)], some (PyErr.raised (PyVal.int 7)), StageEvent.executed "boom.py") ∧
    runStages exFs "/w" ["a.py", "boom.py", "c.py"] [] =
      ([("x", PyVal.int 1)], some (PyErr.raised (PyVal.int 7)),
        [StageEvent.executed "a.py", StageEvent.executed "boom.py"]) :=
  ⟨by decide, by decide,
    (fail_fast exFs "/w" "a.py" "boom.py" ["c.py"] [] [] [] [("x", PyVal.int 1)]
      [("x", PyVal.int 1)] (PyErr.raised (PyVal.int 7)) (StageEvent.executed "a.py")
      (StageEvent.executed "boom.py") (by decide) (by decide)).1⟩

/-- C6: Missing-script skip.  When the middle stage resolves (absolute as
given, else against the working directory) to a path the filesystem lacks,
the loop emits the not-found notice for it and continues: the surrounding
stages both execute and the pipeline ends without an error. -/
theorem missing_script_skip (fs : FileSys) (cwd a m c : String) (ctx ctx1 ctx3 : Ctx)
    (hm : fs (resolve_script_path cwd m) = Option.none)
    (h1 : run_script fs cwd a ctx = (ctx1, Option.none, StageEvent.executed a))
    (h3 : run_script fs cwd c ctx1 = (ctx3, Option.none, StageEvent.executed c)) :
    runStages fs cwd [a, m, c] ctx =
      (ctx3, Option.none,
        [StageEvent.executed a, StageEvent.notFound m, StageEvent.executed c]) := by
  have hm2 : run_script fs cwd m ctx1 = (ctx1, Option.none, StageEvent.notFound m) := by
    unfold run_script
    rw [hm]
  simp only [runStages, h1, hm2, h3]

/-- C6 witness: with stages a.py, missing.py, c.py where missing.py does
not resolve to a file, a.py and c.py both execute and the run finishes
normally. -/
theorem missing_script_skip_witness :
    exFs (resolve_script_path "/w" "missing.py") = Option.none ∧
    runStages exFs "/w" ["a.py", "missing.py", "c.py"] [] =
      ([("x", PyVal.int 1), ("z", PyVal.int 2)], Option.none,
        [StageEvent.executed "a.py", StageEvent.notFound "missing.py",
          StageEvent.executed "c.py"]) :=
  ⟨by decide,
    missing_script_skip exFs "/w" "a.py" "missing.py" "c.py" [] [("x", PyVal.int 1)]
      [("x", PyVal.int 1), ("z", PyVal.int 2)] (by decide) (by decide) (by decide)⟩

/-- C7 counterexample: the claim says a name assigned during one run call
is never visible during a separate, later run call.  In the code the
namespace is the module-global GLOBAL_CONTEXT, which run never resets: in
one process, a first run call executing a.py (which assigns x = 1) leaves x
in the namespace, and a second run call executing b.py (which reads x into
y) sees it and finishes without a name error. -/
theorem namespace_not_reset_counterexample :
    (run exFs "/w" ["b.py"] (run exFs "/w" ["a.py"] (initWorld [] [])).fst).fst.ctx =
      [("x", PyVal.int 1), ("y", PyVal.int 1)] ∧
    (run exFs "/w" ["b.py"] (run exFs "/w" ["a.py"] (initWorld [] [])).fst).snd.fst =
      Option.none := by
  constructor
  · decide
  · decide

/-- C7 amended: the shared namespace is created empty once per process (at
module import), not per run call; within a run every later stage starts
from the namespace the previous stage left, and within a process every
later run call starts from the namespace the previous run call left, so a
name assigned in one run call stays visible to later run calls of the same
process.  Isolation holds only between separate processes, each of which
starts again from the empty GLOBAL_CONTEXT. -/
theorem namespace_process_scope (fs : FileSys) (cwd s : String)
    (rest scripts1 scripts2 : List String) (st : Store) (hist : List (List String))
    (w : World) (ctx ctx2 : Ctx) (ev : StageEvent)
    (hs : run_script fs cwd s ctx = (ctx2, Option.none, ev)) :
    (initWorld st hist).ctx = [] ∧
    runStages fs cwd (s :: rest) ctx =
      ((runStages fs cwd rest ctx2).fst, (runStages fs cwd rest ctx2).snd.fst,
        ev :: (runStages fs cwd rest ctx2).snd.snd) ∧
    (run fs cwd scripts1 w).fst.ctx = (runStages fs cwd scripts1 w.ctx).fst ∧
    (run fs cwd scripts2 (run fs cwd scripts1 w).fst).fst.ctx =
      (runStages fs cwd scripts2 (runStages fs cwd scripts1 w.ctx).fst).fst := by
  have hrun : ∀ (sc : List String) (w2 : World),
      (run fs cwd sc w2).fst.ctx = (runStages fs cwd sc w2.ctx).fst := by
    intro sc w2
    cases hr : runStages fs cwd sc w2.ctx with
    | mk c2 p =>
      cases p with
      | mk er ev2 => simp [run, hr]
  refine ⟨rfl, ?_, hrun scripts1 w, ?_⟩
  · cases hr : runStages fs cwd rest ctx2 with
    | mk c2 p =>
      cases p with
      | mk er evs => simp [runStages, hs, hr]
  · rw [hrun scripts2 (run fs cwd scripts1 w).fst, hrun scripts1 w]

/-- C7 amended witness: instantiated on the concrete filesystem, one stage
and two run calls. -/
theorem namespace_process_scope_witness :
    run_script exFs "/w" "a.py" [] = ([("x", PyVal.int 1)], Option.none, StageEvent.executed "a.py") ∧
    runStages exFs "/w" ["a.py", "b.py"] [] =
      ((runStages exFs "/w" ["b.py"] [("x", PyVal.int 1)]).fst,
        (runStages exFs "/w" ["b.py"] [("x", PyVal.int 1)]).snd.fst,
        StageEvent.executed "a.py" :: (runStages exFs "/w" ["b.py"] [("x", PyVal.int 1)]).snd.snd) :=
  ⟨by decide,
    (namespace_process_scope exFs "/w" "a.py" ["b.py"] [] [] [] [] (initWorld [] [])
      [] [("x", PyVal.int 1)] (StageEvent.executed "a.py") (by decide)).2.1⟩

/-- Every file written under a key with the pkl extension matches the glob
pattern used by clear. -/
theorem globPkl_append (s : String) : globPkl (s ++ ".pkl") = true := by
  have hdata : (s ++ ".pkl").data = s.data ++ [Char.ofNat 46, Char.ofNat 112, Char.ofNat 107, Char.ofNat 108] := by
    rw [String.data_append]
  unfold globPkl
  rw [hdata, List.reverse_append]
  rfl

/-- After clear, no lookup of a name matching the glob succeeds. -/
theorem storeGet_clear (st : Store) (name : String) (h : globPkl name = true) :
    storeGet (clearStore st) name = Option.none := by
  induction st with
  | nil => rfl
  | cons p rest ih =>
    obtain ⟨k, v⟩ := p
    by_cases hk : globPkl k
    · simpa [clearStore, List.filter_cons, hk] using ih
    · have hne : k ≠ name := fun he => hk (he ▸ h)
      simpa [clearStore, List.filter_cons, hk, storeGet, ctxGet, hne] using ih

/-- C8: Clear is total and frame-limited.  After the clear command every
cache entry (every file stored under a key with the pkl extension) is
absent, the history log and the shared namespace are exactly as before,
and a subsequent call with previously-cached arguments misses and
re-executes the wrapped callable, returning and mutating exactly what the
direct call would. -/
theorem clear_total_and_frame (w : World) (key : String) (f : PyFunc)
    (a : List PyVal) (kw : List (String × PyVal)) (ctx : Ctx) :
    storeGet (clear w).store (key ++ ".pkl") = Option.none ∧
    (clear w).history = w.history ∧
    (clear w).ctx = w.ctx ∧
    (wrapper f a kw (clear w).store ctx).hit = false ∧
    (wrapper f a kw (clear w).store ctx).result = (runFunc f a kw ctx).fst ∧
    (wrapper f a kw (clear w).store ctx).ctx = (runFunc f a kw ctx).snd := by
  have hget : ∀ s, storeGet (clear w).store (s ++ ".pkl") = Option.none := fun s =>
    storeGet_clear w.store (s ++ ".pkl") (globPkl_append s)
  refine ⟨hget key, rfl, rfl, ?_, ?_, ?_⟩ <;>
  · simp only [wrapper, hget (cacheKey f a kw)]
    cases hr : runFunc f a kw ctx with
    | mk r ctx2 => cases r <;> simp

/-- C9: Argument sensitivity.  Changing the positional arguments (or the
keyword arguments) to ones with a different canonical tuple (dict) repr
changes the key_data string, hence — absent a SHA-256 collision between
the two key_data strings, stated as the hypothesis hinj — the CacheKey;
the changed call then misses the store left by the original call from an
empty cache and re-executes the wrapped callable on the new arguments. -/
theorem argument_sensitivity (f : PyFunc) (a1 a2 : List PyVal)
    (k1 k2 : List (String × PyVal)) (ctx1 ctx2 : Ctx)
    (hdiff : (pyTupleRepr a1 ≠ pyTupleRepr a2 ∧ pyDictRepr k1 = pyDictRepr k2) ∨
      (pyTupleRepr a1 = pyTupleRepr a2 ∧ pyDictRepr k1 ≠ pyDictRepr k2))
    (hinj : cacheKey f a1 k1 = cacheKey f a2 k2 → keyData f a1 k1 = keyData f a2 k2) :
    cacheKey f a1 k1 ≠ cacheKey f a2 k2 ∧
    (wrapper f a2 k2 (wrapper f a1 k1 [] ctx1).store ctx2).hit = false ∧
    (wrapper f a2 k2 (wrapper f a1 k1 [] ctx1).store ctx2).result =
      (runFunc f a2 k2 ctx2).fst := by
  have hkd : keyData f a1 k1 ≠ keyData f a2 k2 := by
    intro h
    unfold keyData at h
    rcases hdiff with ⟨hA, hK⟩ | ⟨hA, hK⟩
    · rw [hK] at h
      have h2 := strAppendRightCancel h
      have h3 := strAppendRightCancel h2
      exact hA (strAppendLeftCancel h3)
    · rw [hA] at h
      have h2 := strAppendRightCancel h
      exact hK (strAppendLeftCancel h2)
  have hkey : cacheKey f a1 k1 ≠ cacheKey f a2 k2 := fun h => hkd (hinj h)
  have hfile : cacheKey f a1 k1 ++ ".pkl" ≠ cacheKey f a2 k2 ++ ".pkl" := fun h =>
    hkey (strAppendRightCancel h)
  have hmiss : storeGet (wrapper f a1 k1 [] ctx1).store (cacheKey f a2 k2 ++ ".pkl") =
      Option.none := by
    simp only [wrapper]
    cases hr : runFunc f a1 k1 ctx1 with
    | mk r c2 =>
      cases r with
      | ok v =>
        simp only [storeGet, storePut, ctxSet, ctxGet]
        simp [hfile]
      | error e => rfl
  refine ⟨hkey, ?_, ?_⟩ <;>
  · generalize hG : (wrapper f a1 k1 [] ctx1).store = st1 at hmiss ⊢
    simp only [wrapper, hmiss]
    cases hr : runFunc f a2 k2 ctx2 with
    | mk r c2 => cases r <;> simp

/-- C9 witness: calling the identity function with 1 and then with 2 —
tuple reprs differ, the concrete SHA-256 keys differ, the second call
misses the store primed by the first and re-executes, returning 2. -/
theorem argument_sensitivity_witness :
    pyTupleRepr [PyVal.int 1] ≠ pyTupleRepr [PyVal.int 2] ∧
    cacheKey exIdent [PyVal.int 1] [] ≠ cacheKey exIdent [PyVal.int 2] [] ∧
    (wrapper exIdent [PyVal.int 2] [] (wrapper exIdent [PyVal.int 1] [] [] []).store []).hit =
      false ∧
    (wrapper exIdent [PyVal.int 2] [] (wrapper exIdent [PyVal.int 1] [] [] []).store []).result =
      Except.ok (PyVal.int 2) := by
  have hmain := argument_sensitivity exIdent [PyVal.int 1] [PyVal.int 2] [] [] [] []
    (Or.inl ⟨by decide, rfl⟩) (by decide)
  refine ⟨by decide, hmain.1, hmain.2.1, ?_⟩
  rw [hmain.2.2]
  decide

/-- readlines yields no lines exactly for empty text. -/
theorem readlines_nil_iff (cs : List Char) : readlines cs = [] ↔ cs = [] := by
  cases cs with
  | nil => simp [readlines]
  | cons c rest =>
    constructor
    · intro h
      exfalso
      by_cases hc : c = nlChar
      · simp [readlines, hc] at h
      · cases hr : readlines rest with
        | nil => simp [readlines, hc, hr] at h
        | cons l ls => simp [readlines, hc, hr] at h
    · intro h
      exact absurd h (by simp)

/-- Concatenating the lines of readlines restores the text. -/
theorem cat_readlines (cs : List Char) : catLines (readlines cs) = cs := by
  induction cs with
  | nil => rfl
  | cons c rest ih =>
    by_cases hc : c = nlChar
    · subst hc
      simp [readlines, catLines, ih]
    · cases hr : readlines rest with
      | nil =>
        have h0 : rest = [] := (readlines_nil_iff rest).mp hr
        subst h0
        simp [readlines, hc, catLines]
      | cons l ls =>
        rw [hr] at ih
        have h1 : readlines (c :: rest) = (c :: l) :: ls := by
          simp [readlines, hc, hr]
        rw [h1]
        simp only [catLines] at ih ⊢
        simp [ih]

/-- Length of the newline join: the joined lines plus one separator between
each pair of consecutive lines. -/
theorem joinNl_length (l : List Char) (ls : List (List Char)) :
    (joinNl (l :: ls)).length = (catLines (l :: ls)).length + ls.length := by
  induction ls generalizing l with
  | nil => simp [joinNl, catLines]
  | cons y zs ih =>
    have h1 : joinNl (l :: y :: zs) = l ++ nlChar :: joinNl (y :: zs) := rfl
    have h2 : catLines (l :: y :: zs) = l ++ catLines (y :: zs) := rfl
    rw [h1, h2]
    simp only [List.length_append, List.length_cons, ih y]
    omega

/-- The join of the readlines of a text equals the text with every newline
that is followed by further text doubled. -/
theorem joinNl_readlines_eq_dbl (cs : List Char) : joinNl (readlines cs) = dblNl cs := by
  induction cs with
  | nil => rfl
  | cons c rest ih =>
    by_cases hc : c = nlChar
    · subst hc
      by_cases h0 : rest = []
      · subst h0
        rfl
      · cases hr : readlines rest with
        | nil => exact absurd ((readlines_nil_iff rest).mp hr) h0
        | cons l ls =>
          have h1 : readlines (nlChar :: rest) = [nlChar] :: l :: ls := by
            simp [readlines, hr]
          have h2 : dblNl (nlChar :: rest) = nlChar :: nlChar :: dblNl rest := by
            simp [dblNl, h0]
          have h3 : joinNl ([nlChar] :: l :: ls) = nlChar :: nlChar :: joinNl (l :: ls) := rfl
          rw [h1, h2, h3, ← hr, ih]
    · cases hr : readlines rest with
      | nil =>
        have h0 : rest = [] := (readlines_nil_iff rest).mp hr
        subst h0
        simp [readlines, hc, dblNl, joinNl]
      | cons l ls =>
        have h1 : readlines (c :: rest) = (c :: l) :: ls := by
          simp [readlines, hc, hr]
        have h2 : dblNl (c :: rest) = c :: dblNl rest := by
          simp [dblNl, hc]
        rw [h1, h2, ← ih, hr]
        cases ls with
        | nil => rfl
        | cons y zs => rfl

/-- C10: Executed source differs from file text.  For every stage file,
the text run_script compiles is the readlines of the file (each line
keeping its trailing newline) joined with one extra newline — equivalently,
the original source with a blank line inserted after every
newline-terminated line that is followed by more text — and this equals
the raw file contents exactly when the file has at most one line. -/
theorem script_text_transformation (s : String) :
    script_str s = String.mk (dblNl s.data) ∧
    (script_str s = s ↔ (readlines s.data).length ≤ 1) := by
  constructor
  · unfold script_str
    rw [joinNl_readlines_eq_dbl]
  · unfold script_str
    constructor
    · intro h
      have hdata : joinNl (readlines s.data) = s.data := congrArg String.data h
      cases hr : readlines s.data with
      | nil => simp
      | cons l ls =>
        cases ls with
        | nil => simp
        | cons y zs =>
          exfalso
          rw [hr] at hdata
          have hlen := congrArg List.length hdata
          rw [joinNl_length] at hlen
          have hcat : catLines (l :: y :: zs) = s.data := by
            rw [← hr]
            exact cat_readlines s.data
          rw [hcat] at hlen
          simp at hlen
    · intro h
      cases hr : readlines s.data with
      | nil =>
        have h0 : s.data = [] := (readlines_nil_iff s.data).mp hr
        calc String.mk (joinNl ([] : List (List Char))) = String.mk ([] : List Char) := rfl
          _ = String.mk s.data := by rw [h0]
          _ = s := rfl
      | cons l ls =>
        cases ls with
        | nil =>
          have hcat : catLines [l] = s.data := by
            rw [← hr]
            exact cat_readlines s.data
          have hl : l = s.data := by simpa [catLines] using hcat
          calc String.mk (joinNl [l]) = String.mk l := rfl
            _ = String.mk s.data := by rw [hl]
            _ = s := rfl
        | cons y zs =>
          rw [hr] at h
          simp at h

end Vinyasa
